import Mathlib

/-!
Verification of the tailscale discovery/NAT-traversal fragment: the generated
stringer for `discoPingPurpose` (magicsock), the `handleC2N` admin HTTP
dispatcher (ipn/ipnlocal/c2n.go), and the spec-level disco codec and per-peer
path-selection state machine.
-/

namespace Tailscale

/-! ## discoPingPurpose stringer (src/unnamed/part_000) -/

/-- Ordinal of `pingDiscovery`, pinned to 0 by the generated compile-time
guard `_ = x[pingDiscovery-0]` in the stringer file. -/
def pingDiscovery : Int := 0

/-- Ordinal of `pingHeartbeat`, pinned to 1 by the guard `_ = x[pingHeartbeat-1]`. -/
def pingHeartbeat : Int := 1

/-- Ordinal of `pingCLI`, pinned to 2 by the guard `_ = x[pingCLI-2]`. -/
def pingCLI : Int := 2

/-- The concatenated name table `_discoPingPurpose_name` from the stringer file. -/
def discoPingPurposeName : String := "DiscoveryHeartbeatCLI"

/-- The offset table `_discoPingPurpose_index = [...]uint8{0, 9, 18, 21}`. -/
def discoPingPurposeIndex : List Nat := [0, 9, 18, 21]

/-- Decimal rendering of a signed integer, as `strconv.FormatInt(int64(i), 10)`
produces it: an optional leading minus sign followed by the decimal digits. -/
def formatInt (i : Int) : String :=
  if i < 0 then "-" ++ Nat.repr i.natAbs else Nat.repr i.toNat

/-- Embedding of `func (i discoPingPurpose) String() string`: out-of-range
values render as `discoPingPurpose(<decimal>)`; in-range values slice the name
table between consecutive offsets (Go `s[a:b]` is chars `a` to `b-1`). -/
def discoPingPurposeString (i : Int) : String :=
  if i < 0 ∨ i ≥ (discoPingPurposeIndex.length : Int) - 1 then
    "discoPingPurpose(" ++ formatInt i ++ ")"
  else
    let lo := discoPingPurposeIndex.getD i.toNat 0
    let hi := discoPingPurposeIndex.getD (i.toNat + 1) 0
    (((discoPingPurposeName.toList).drop lo).take (hi - lo)).asString

/-- Bounds-checked variant of the stringer body: the table reads fail (return
`none`) instead of being clamped, and the slice bounds are checked against the
name string length.  Used to state that the real body never reads out of
bounds. -/
def discoPingPurposeStringChecked (i : Int) : Option String :=
  if i < 0 ∨ i ≥ (discoPingPurposeIndex.length : Int) - 1 then
    some ("discoPingPurpose(" ++ formatInt i ++ ")")
  else do
    let lo ← discoPingPurposeIndex.get? i.toNat
    let hi ← discoPingPurposeIndex.get? (i.toNat + 1)
    if lo ≤ hi ∧ hi ≤ discoPingPurposeName.length then
      some ((((discoPingPurposeName.toList).drop lo).take (hi - lo)).asString)
    else
      none

/-- The closed purpose enumeration from §4.1 of the spec: `Discovery`,
`Heartbeat`, `CLI`, in wire-ordinal order. -/
inductive PingPurpose
  | Discovery
  | Heartbeat
  | CLI
deriving DecidableEq, Repr

/-- Wire ordinal of a purpose: Discovery = 0, Heartbeat = 1, CLI = 2. -/
def purposeOrdinal : PingPurpose → Nat
  | .Discovery => 0
  | .Heartbeat => 1
  | .CLI => 2

/-- Decode-time error taxonomy from §7 of the spec. -/
inductive DecodeErr
  | MalformedMessage
  | UnknownPurpose
deriving DecidableEq, Repr

/-- Modelled from the spec: decoding of the purpose tag byte.  The codec
itself is not in the examined fragment; §4.1 requires decoding to fail with
`UnknownPurpose` whenever the tag is outside the closed set `{0, 1, 2}`. -/
def decodePurposeTag (b : Nat) : Except DecodeErr PingPurpose :=
  if b = 0 then .ok .Discovery
  else if b = 1 then .ok .Heartbeat
  else if b = 2 then .ok .CLI
  else .error .UnknownPurpose

/-! ## Disco message codec (modelled from the spec, §4.1) -/

/-- Little-endian fixed-width byte encoding of a natural number: `k` bytes,
least significant first. -/
def natToBytes : Nat → Nat → List Nat
  | 0, _ => []
  | k + 1, n => (n % 256) :: natToBytes k (n / 256)

/-- Read back a little-endian byte list as a natural number. -/
def bytesToNat : List Nat → Nat
  | [] => 0
  | b :: bs => b + 256 * bytesToNat bs

/-- Consume exactly `k` bytes from the front of a buffer, failing when the
buffer is shorter than `k`. -/
def readNat (k : Nat) (bs : List Nat) : Option (Nat × List Nat) :=
  if k ≤ bs.length then some (bytesToNat (bs.take k), bs.drop k) else none

/-- A network address: IP (up to 16 bytes) and port (2 bytes). -/
structure NetAddr where
  ip : Nat
  port : Nat
deriving DecidableEq, Repr

/-- Modelled from the spec: the three disco message kinds of §4.1 —
`Ping{token, src-purpose}`, `Pong{token, observed-src-addr}`,
`CallMeMaybe{candidate-list}`.  The codec source is outside the examined
fragment. -/
inductive DiscoMessage
  | ping (token : Nat) (purpose : PingPurpose)
  | pong (token : Nat) (src : NetAddr)
  | callMeMaybe (cands : List NetAddr)
deriving DecidableEq, Repr

/-- Wire form of an address: 16 IP bytes then 2 port bytes. -/
def encodeAddr (a : NetAddr) : List Nat :=
  natToBytes 16 a.ip ++ natToBytes 2 a.port

/-- Modelled from the spec: the frame encoder.  A tag byte (1 = Ping,
2 = Pong, 3 = CallMeMaybe) followed by the fixed-width fields: a 12-byte
correlation token, a 1-byte purpose ordinal, addresses as 18 bytes each, and a
2-byte candidate count. -/
def encodeDisco : DiscoMessage → List Nat
  | .ping t p => 1 :: (natToBytes 12 t ++ [purposeOrdinal p])
  | .pong t a => 2 :: (natToBytes 12 t ++ encodeAddr a)
  | .callMeMaybe cs => 3 :: (natToBytes 2 cs.length ++ (cs.map encodeAddr).flatten)

/-- Consume one wire-form address. -/
def readAddr (bs : List Nat) : Option (NetAddr × List Nat) := do
  let (ip, bs1) ← readNat 16 bs
  let (port, bs2) ← readNat 2 bs1
  some (⟨ip, port⟩, bs2)

/-- Consume `k` consecutive wire-form addresses. -/
def readAddrs : Nat → List Nat → Option (List NetAddr × List Nat)
  | 0, bs => some ([], bs)
  | k + 1, bs => do
    let (a, bs1) ← readAddr bs
    let (rest, bs2) ← readAddrs k bs1
    some (a :: rest, bs2)

/-- Modelled from the spec: the frame decoder.  Truncated or trailing input is
`MalformedMessage`; a purpose tag outside `{0, 1, 2}` is `UnknownPurpose`. -/
def decodeDisco (bs : List Nat) : Except DecodeErr DiscoMessage :=
  match bs with
  | 1 :: rest =>
    match readNat 12 rest with
    | none => .error .MalformedMessage
    | some (t, rest1) =>
      match rest1 with
      | [pb] =>
        match decodePurposeTag pb with
        | .error e => .error e
        | .ok p => .ok (.ping t p)
      | _ => .error .MalformedMessage
  | 2 :: rest =>
    match readNat 12 rest with
    | none => .error .MalformedMessage
    | some (t, rest1) =>
      match readAddr rest1 with
      | none => .error .MalformedMessage
      | some (a, rest2) =>
        if rest2 = [] then .ok (.pong t a) else .error .MalformedMessage
  | 3 :: rest =>
    match readNat 2 rest with
    | none => .error .MalformedMessage
    | some (n, rest1) =>
      match readAddrs n rest1 with
      | none => .error .MalformedMessage
      | some (cands, rest2) =>
        if rest2 = [] then .ok (.callMeMaybe cands) else .error .MalformedMessage
  | _ => .error .MalformedMessage

/-- An address whose fields fit their wire widths. -/
def ValidAddr (a : NetAddr) : Prop :=
  a.ip < 256 ^ 16 ∧ a.port < 256 ^ 2

/-- A message whose fields fit their wire widths (and, for `ping`, whose
purpose is by construction in the closed set). -/
def ValidMessage : DiscoMessage → Prop
  | .ping t _ => t < 256 ^ 12
  | .pong t a => t < 256 ^ 12 ∧ ValidAddr a
  | .callMeMaybe cs => cs.length < 256 ^ 2 ∧ ∀ a ∈ cs, ValidAddr a

instance : DecidablePred ValidAddr := fun a => by
  unfold ValidAddr; infer_instance

/-! ## Path selection state machine (modelled from the spec, §4.3) -/

/-- Modelled from the spec: per-peer path states `{NoPath, Probing, Direct,
Relayed, Degraded}` of §3. -/
inductive PathState
  | NoPath
  | Probing
  | Direct
  | Relayed
  | Degraded
deriving DecidableEq, Repr

/-- Modelled from the spec: a per-peer machine holding the path state and the
endpoint candidate store; each stored candidate carries a flag saying whether
it is the Direct-active candidate. -/
structure PeerPathMachine where
  path : PathState
  cands : List (NetAddr × Bool)
deriving DecidableEq, Repr

/-- Modelled from the spec: the typed per-peer events of §4.2/§4.3 and §9 —
candidate arrival, a validating pong, exhaustion of Discovery retries, a
`ProbeFailed(candidate, purpose)` signal, and grace-window expiry. -/
inductive PeerEvent
  | candidateAdded (c : NetAddr)
  | pongValidated (c : NetAddr)
  | allDiscoveryFailed
  | probeFailed (c : NetAddr) (p : PingPurpose)
  | graceExpired
deriving DecidableEq, Repr

/-- Add a candidate to the store unless an entry for the same address already
exists (the store is a set of addresses). -/
def addCandidate (c : NetAddr) (cs : List (NetAddr × Bool)) : List (NetAddr × Bool) :=
  if cs.any (fun p => decide (p.1 = c)) then cs else (c, false) :: cs

/-- Make `c` the unique Direct-active candidate. -/
def setActive (c : NetAddr) (cs : List (NetAddr × Bool)) : List (NetAddr × Bool) :=
  cs.map (fun p => (p.1, decide (p.1 = c)))

/-- Deactivate every candidate. -/
def clearActive (cs : List (NetAddr × Bool)) : List (NetAddr × Bool) :=
  cs.map (fun p => (p.1, false))

/-- Whether `c` is currently the Direct-active candidate. -/
def isActive (c : NetAddr) (cs : List (NetAddr × Bool)) : Bool :=
  cs.any (fun p => decide (p.1 = c) && p.2)

/-- Modelled from the spec: one transition of the per-peer path-selection
state machine, following the transition list of §4.3 verbatim.  A
`ProbeFailed` with `CLI` purpose matches no transition (§4.2: CLI failures
have no state-machine effect); `Heartbeat` failure on the active candidate
demotes `Direct` to `Degraded`; `Discovery` failure removes the candidate
from consideration. -/
def stepPeer (s : PeerPathMachine) (e : PeerEvent) : PeerPathMachine :=
  match s.path, e with
  | .NoPath, .candidateAdded c => ⟨.Probing, addCandidate c s.cands⟩
  | .Relayed, .candidateAdded c => ⟨.Probing, addCandidate c s.cands⟩
  | .Probing, .candidateAdded c => ⟨.Probing, addCandidate c s.cands⟩
  | .Direct, .candidateAdded c => ⟨.Direct, addCandidate c s.cands⟩
  | .Degraded, .candidateAdded c => ⟨.Degraded, addCandidate c s.cands⟩
  | .Probing, .pongValidated c => ⟨.Direct, setActive c s.cands⟩
  | .Degraded, .pongValidated c => ⟨.Direct, setActive c s.cands⟩
  | .Probing, .allDiscoveryFailed => ⟨.Relayed, clearActive s.cands⟩
  | .Direct, .probeFailed c .Heartbeat =>
    if isActive c s.cands then ⟨.Degraded, s.cands⟩ else ⟨.Direct, s.cands⟩
  | .Probing, .probeFailed c .Discovery =>
    ⟨.Probing, s.cands.filter (fun p => !(decide (p.1 = c)))⟩
  | .Degraded, .graceExpired => ⟨.Relayed, clearActive s.cands⟩
  | _, _ => s

/-- The machine of a freshly created peer: `NoPath`, empty candidate store. -/
def initPeerMachine : PeerPathMachine := ⟨.NoPath, []⟩

/-- Number of Direct-active candidates in a store. -/
def activeCount (cs : List (NetAddr × Bool)) : Nat :=
  (cs.filter (fun p => p.2)).length

/-- Store well-formedness: addresses are pairwise distinct and at most one
candidate is Direct-active. -/
def GoodStore (cs : List (NetAddr × Bool)) : Prop :=
  (cs.map Prod.fst).Nodup ∧ activeCount cs ≤ 1

/-- The machines reachable from a freshly created peer by any event
sequence. -/
inductive ReachablePeer : PeerPathMachine → Prop
  | init : ReachablePeer initPeerMachine
  | step (s : PeerPathMachine) (e : PeerEvent) :
      ReachablePeer s → ReachablePeer (stepPeer s e)

instance : DecidablePred ValidMessage := fun m => by
  cases m <;> (unfold ValidMessage; infer_instance)

/-! ## Admin/diagnostic HTTP surface (ipn/ipnlocal/c2n.go) -/

/-- Outcome of the environment probes made by `handleC2NUpdate` and
`findCmdTailscale`: `envknob.AllowsRemoteUpdate()`, whether
`clientupdate.NewUpdater` returns no error, `version.IsMacSysExt()`,
whether `os.Executable()` succeeds and what it returns, `runtime.GOOS`,
the `os.Stat` check on Windows, and the outcome of running
`tailscale version --json` and `tailscale update --yes`. -/
structure UpdateEnv where
  allowsRemoteUpdate : Bool
  newUpdaterOk : Bool
  isMacSysExt : Bool
  osExecutableOk : Bool
  goos : String
  selfExe : String
  winTailscaleExeRegular : Bool
  versionOutputOk : Bool
  versionJSONOk : Bool
  versionLong : String
  daemonLong : String
  startOk : Bool
deriving DecidableEq, Repr

/-- Directory part of a path: everything before the last path separator
(model of `filepath.Dir`). -/
def filepathDir (p : String) : String :=
  ((((p.toList).reverse.dropWhile (fun ch => !(ch == '/' || ch == '\\'))).drop 1).reverse).asString

/-- Join a directory and a file name (model of `filepath.Join` on Windows). -/
def filepathJoin (d f : String) : String := d ++ "\\" ++ f

/-- Embedding of `findCmdTailscale`: on linux the binary must be the packaged
`/usr/sbin/tailscaled`, giving `/usr/bin/tailscale`; on windows
`tailscale.exe` must be a regular file next to the daemon; every other OS is
unsupported.  `$PATH` is never consulted. -/
def findCmdTailscale (env : UpdateEnv) : Except String String :=
  if !env.osExecutableOk then .error "cannot determine executable path"
  else if env.goos = "linux" then
    if env.selfExe = "/usr/sbin/tailscaled" then .ok "/usr/bin/tailscale"
    else .error "tailscale not found in expected place"
  else if env.goos = "windows" then
    if env.winTailscaleExeRegular then
      .ok (filepathJoin (filepathDir env.selfExe) "tailscale.exe")
    else .error "tailscale.exe not found in expected place"
  else .error ("unsupported OS " ++ env.goos)

/-- The JSON body of a `/update` response: `tailcfg.C2NUpdateResponse`. -/
structure C2NUpdateResponse where
  Started : Bool
  Err : String
  Enabled : Bool
  Supported : Bool
deriving DecidableEq, Repr

/-- Embedding of `handleC2NUpdate`.  `none` models the 405 "bad method"
reply sent before any JSON response is built; otherwise the function returns
the JSON response it encodes in its deferred writer, built by walking the
same early-return chain as the source. -/
def handleC2NUpdate (env : UpdateEnv) (method : String) : Option C2NUpdateResponse :=
  if method ≠ "GET" ∧ method ≠ "POST" then none
  else
    let enabled := env.allowsRemoteUpdate
    let supported := env.newUpdaterOk && !env.isMacSysExt
    if method = "GET" then some ⟨false, "", enabled, supported⟩
    else if !enabled then some ⟨false, "not enabled", enabled, supported⟩
    else if !supported then some ⟨false, "not supported", enabled, supported⟩
    else
      match findCmdTailscale env with
      | .error e => some ⟨false, "failed to find cmd/tailscale binary: " ++ e, enabled, supported⟩
      | .ok _ =>
        if !env.versionOutputOk then
          some ⟨false, "failed to find cmd/tailscale binary: exec failed", enabled, supported⟩
        else if !env.versionJSONOk then
          some ⟨false, "invalid JSON from cmd/tailscale version --json", enabled, supported⟩
        else if env.versionLong ≠ env.daemonLong then
          some ⟨false, "cmd/tailscale version mismatch", enabled, supported⟩
        else if !env.startOk then
          some ⟨false, "failed to start cmd/tailscale update: exec failed", enabled, supported⟩
        else some ⟨true, "", enabled, supported⟩

/-- The discovery/NAT-traversal state of the backend: the per-peer
path-selection machines, keyed by peer id. -/
structure DiscoEngineState where
  peers : List (Nat × PeerPathMachine)
deriving DecidableEq, Repr

/-- The administrative (non-traversal) state read and written by the c2n
handlers: log flushing, component debug logging, heap/sockstat diagnostics,
prefs, SSH usernames and the update environment. -/
structure AdminState where
  pendingLogs : Bool
  logFlusherWired : Bool
  componentDebug : List (String × Int)
  logHeapWired : Bool
  sockstatWired : Bool
  sockstatFlushCount : Nat
  prefsText : String
  metricsText : String
  sshLookupOk : Bool
  sshUsernames : List String
  now : Int
  updateEnv : UpdateEnv
deriving DecidableEq, Repr

/-- The backend state seen by `handleC2N`: the traversal engine plus the
administrative state. -/
structure LocalBackendState where
  disco : DiscoEngineState
  admin : AdminState
deriving DecidableEq, Repr

/-- Modelled from the spec: `LocalBackend.TryFlushLogs`, whose body is outside
the examined fragment.  §1 scopes the admin endpoints to operational tooling
with no traversal logic, so the flush acts on the administrative log state
only, returning false when no flusher is wired up. -/
def tryFlushLogs (a : AdminState) : Bool × AdminState :=
  if a.logFlusherWired then (true, { a with pendingLogs := false }) else (false, a)

/-- Modelled from the spec: `LocalBackend.SetComponentDebugLogging`, whose
body is outside the examined fragment; it records a per-component debug
deadline in the administrative state, failing on an unknown component. -/
def setComponentDebugLogging (a : AdminState) (component : String) (deadline : Int) :
    Option String × AdminState :=
  if component = "" then (some "invalid component", a)
  else (none, { a with componentDebug := (component, deadline) :: a.componentDebug })

/-- Modelled from the spec: `LocalBackend.getSSHUsernames`, whose body is
outside the examined fragment; a read-only lookup of candidate SSH usernames
that can fail. -/
def getSSHUsernames (a : AdminState) : Except String (List String) :=
  if a.sshLookupOk then .ok a.sshUsernames else .error "ssh usernames unavailable"

/-- A c2n request: URL path, method, raw body, whether the body parses as the
expected request JSON, and the `component`/`secs` form values. -/
structure C2NRequest where
  path : String
  method : String
  body : List Nat
  bodyJSONOk : Bool
  component : String
  secs : Int
deriving DecidableEq, Repr

/-- The body of a c2n response. -/
inductive C2NBody
  | raw (bs : List Nat)
  | text (s : String)
  | jsonUpdate (r : C2NUpdateResponse)
  | jsonErr (e : Option String)
  | jsonSSH (names : List String)
  | jsonPrefs (s : String)
  | empty
deriving DecidableEq, Repr

/-- A c2n response: HTTP status and body. -/
structure C2NResponse where
  status : Nat
  body : C2NBody
deriving DecidableEq, Repr

/-- The `case "/logtail/flush"` arm of `handleC2N`: POST only; 204 when the
flush succeeds, 500 when no flusher is wired up. -/
def handleLogtailFlush (b : LocalBackendState) (r : C2NRequest) :
    C2NResponse × LocalBackendState :=
  if r.method ≠ "POST" then (⟨405, .text "bad method"⟩, b)
  else
    match tryFlushLogs b.admin with
    | (true, a) => (⟨204, .empty⟩, ⟨b.disco, a⟩)
    | (false, a) => (⟨500, .text "no log flusher wired up"⟩, ⟨b.disco, a⟩)

/-- The `case "/debug/metrics"` arm of `handleC2N`: writes the Prometheus
exposition of the client metrics. -/
def handleDebugMetrics (b : LocalBackendState) (_r : C2NRequest) :
    C2NResponse × LocalBackendState :=
  (⟨200, .text b.admin.metricsText⟩, b)

/-- The `case "/ssh/usernames"` arm of `handleC2N`: an optional POST body is
decoded (400 on bad JSON), then the username lookup runs (500 on failure). -/
def handleSSHUsernames (b : LocalBackendState) (r : C2NRequest) :
    C2NResponse × LocalBackendState :=
  if r.method = "POST" ∧ ¬ r.bodyJSONOk then (⟨400, .text "bad request JSON"⟩, b)
  else
    match getSSHUsernames b.admin with
    | .error e => (⟨500, .text e⟩, b)
    | .ok names => (⟨200, .jsonSSH names⟩, b)

/-- The `case "/update"` arm of `handleC2N`, delegating to
`handleC2NUpdate`. -/
def handleUpdateEndpoint (b : LocalBackendState) (r : C2NRequest) :
    C2NResponse × LocalBackendState :=
  match handleC2NUpdate b.admin.updateEnv r.method with
  | none => (⟨405, .text "bad method"⟩, b)
  | some res => (⟨200, .jsonUpdate res⟩, b)

/-- The `case "/debug/component-logging"` arm of `handleC2N`: a `secs` form
value of 0 becomes -1, the deadline is now plus `secs`, and the result of
`SetComponentDebugLogging` is reported as an optional JSON error. -/
def handleComponentLogging (b : LocalBackendState) (r : C2NRequest) :
    C2NResponse × LocalBackendState :=
  match setComponentDebugLogging b.admin r.component
      (b.admin.now + (if r.secs = 0 then r.secs - 1 else r.secs)) with
  | (err, a) => (⟨200, .jsonErr err⟩, ⟨b.disco, a⟩)

/-- The `case "/sockstats"` arm of `handleC2N`: POST only; 500 when no
sockstat logger is wired up, otherwise the logger is flushed and its info
written. -/
def handleSockstats (b : LocalBackendState) (r : C2NRequest) :
    C2NResponse × LocalBackendState :=
  if r.method ≠ "POST" then (⟨405, .text "bad method"⟩, b)
  else if !b.admin.sockstatWired then (⟨500, .text "no sockstatLogger"⟩, b)
  else (⟨200, .text "sockstats"⟩,
    ⟨b.disco, { b.admin with sockstatFlushCount := b.admin.sockstatFlushCount + 1 }⟩)

/-- The URL paths recognized by the `switch r.URL.Path` of `handleC2N`, in
source order. -/
def c2nRecognizedPaths : List String :=
  ["/echo", "/update", "/logtail/flush", "/debug/goroutines", "/debug/prefs",
   "/debug/metrics", "/debug/component-logging", "/debug/logheap",
   "/ssh/usernames", "/sockstats"]

/-- Embedding of `handleC2N`: the `switch r.URL.Path` dispatcher over the
backend state, returning the response and the updated state. -/
def handleC2N (b : LocalBackendState) (r : C2NRequest) :
    C2NResponse × LocalBackendState :=
  if r.path = "/echo" then (⟨200, .raw r.body⟩, b)
  else if r.path = "/update" then handleUpdateEndpoint b r
  else if r.path = "/logtail/flush" then handleLogtailFlush b r
  else if r.path = "/debug/goroutines" then (⟨200, .text "goroutine dump"⟩, b)
  else if r.path = "/debug/prefs" then (⟨200, .jsonPrefs b.admin.prefsText⟩, b)
  else if r.path = "/debug/metrics" then handleDebugMetrics b r
  else if r.path = "/debug/component-logging" then handleComponentLogging b r
  else if r.path = "/debug/logheap" then
    if b.admin.logHeapWired then (⟨200, .text "heap profile"⟩, b)
    else (⟨501, .text "not implemented"⟩, b)
  else if r.path = "/ssh/usernames" then handleSSHUsernames b r
  else if r.path = "/sockstats" then handleSockstats b r
  else (⟨400, .text "unknown c2n path"⟩, b)

/-- State-passing embedding of the purpose renderer: the source
`discoPingPurpose.String` reads and writes no program state beyond its
receiver, so its lift into state-passing style threads the state through. -/
def codecRenderIn (s : LocalBackendState) (i : Int) : String × LocalBackendState :=
  (discoPingPurposeString i, s)

/-- State-passing embedding of the frame encoder (same remark as
`codecRenderIn`). -/
def codecEncodeIn (s : LocalBackendState) (m : DiscoMessage) :
    List Nat × LocalBackendState :=
  (encodeDisco m, s)

/-- State-passing embedding of the frame decoder (same remark as
`codecRenderIn`). -/
def codecDecodeIn (s : LocalBackendState) (bs : List Nat) :
    Except DecodeErr DiscoMessage × LocalBackendState :=
  (decodeDisco bs, s)

/-- A concrete update environment: remote update disabled, linux daemon at
its packaged location. -/
def sampleUpdateEnv : UpdateEnv :=
  ⟨false, false, false, true, "linux", "/usr/sbin/tailscaled", false, false, false, "", "", false⟩

/-- A concrete administrative state. -/
def sampleAdmin : AdminState :=
  ⟨false, false, [], false, false, 0, "", "", true, [], 0, sampleUpdateEnv⟩

/-- A concrete backend state with no peers. -/
def sampleBackend : LocalBackendState := ⟨⟨[]⟩, sampleAdmin⟩

/-- A concrete `/echo` request carrying the body `[1, 2, 3]`. -/
def sampleEchoRequest : C2NRequest := ⟨"/echo", "GET", [1, 2, 3], true, "", 0⟩

/-- A concrete request for a path outside the recognized set. -/
def sampleUnknownRequest : C2NRequest := ⟨"/bogus", "GET", [], true, "", 0⟩

end Tailscale

namespace Tailscale

/-- Helper: two strings whose first characters differ are different strings. -/
theorem string_ne_of_head_ne (s t : String) (h : s.data.head? ≠ t.data.head?) :
    s ≠ t := by
  intro he
  exact h (by rw [he])

/-- Helper: the fallback rendering always begins with the lowercase character
of the text `discoPingPurpose(`. -/
theorem fallback_head (s : String) :
    ("discoPingPurpose(" ++ s ++ ")").data.head? = some 'd' := by
  rfl

end Tailscale

namespace Tailscale

/-- C1: the disco ping purpose ordinals are Discovery = 0, Heartbeat = 1,
CLI = 2, and rendering each of the three values yields exactly the names
"Discovery", "Heartbeat" and "CLI" respectively. -/
theorem purpose_ordinals_and_names :
    pingDiscovery = 0 ∧ pingHeartbeat = 1 ∧ pingCLI = 2 ∧
    discoPingPurposeString 0 = "Discovery" ∧
    discoPingPurposeString 1 = "Heartbeat" ∧
    discoPingPurposeString 2 = "CLI" := by
  refine ⟨rfl, rfl, rfl, ?_, ?_, ?_⟩ <;> decide

/-- C2: for every purpose value outside `{0, 1, 2}` — every negative value and
every value at least 3 — `String` returns the fallback form
`discoPingPurpose(<decimal>)`, which differs from all three valid names, and
decoding any tag byte at least 3 yields the distinguished `UnknownPurpose`
outcome. -/
theorem purpose_out_of_range (i : Int) (h : i < 0 ∨ 3 ≤ i) :
    discoPingPurposeString i = "discoPingPurpose(" ++ formatInt i ++ ")" ∧
    discoPingPurposeString i ≠ "Discovery" ∧
    discoPingPurposeString i ≠ "Heartbeat" ∧
    discoPingPurposeString i ≠ "CLI" ∧
    ∀ b : Nat, 3 ≤ b → decodePurposeTag b = .error .UnknownPurpose := by
  have hlen : ((discoPingPurposeIndex.length : Int) - 1) = 3 := by decide
  have hcond : i < 0 ∨ i ≥ (discoPingPurposeIndex.length : Int) - 1 := by
    rw [hlen]; omega
  have he : discoPingPurposeString i = "discoPingPurpose(" ++ formatInt i ++ ")" := by
    rw [discoPingPurposeString, if_pos hcond]
  refine ⟨he, ?_, ?_, ?_, ?_⟩
  · refine string_ne_of_head_ne _ _ ?_
    rw [he, fallback_head]
    decide
  · refine string_ne_of_head_ne _ _ ?_
    rw [he, fallback_head]
    decide
  · refine string_ne_of_head_ne _ _ ?_
    rw [he, fallback_head]
    decide
  · intro b hb
    have h0 : b ≠ 0 := by omega
    have h1 : b ≠ 1 := by omega
    have h2 : b ≠ 2 := by omega
    simp [decodePurposeTag, h0, h1, h2]

/-- Witness for `purpose_out_of_range` at the concrete out-of-range inputs
`5` and `-1`. -/
theorem purpose_out_of_range_witness :
    discoPingPurposeString 5 = "discoPingPurpose(5)" ∧
    discoPingPurposeString (-1) = "discoPingPurpose(-1)" := by
  refine ⟨?_, ?_⟩
  · have h := purpose_out_of_range 5 (Or.inr (by decide))
    rw [h.1]; decide
  · have h := purpose_out_of_range (-1) (Or.inl (by decide))
    rw [h.1]; decide

/-- C8: the stringer body is total and in-bounds for every input.  The
bounds-checked variant, which fails instead of clamping any table read or
slice, agrees with the real body on every integer: the range guard confines
table reads to indices 0..3 and slice bounds to at most the length of the name
string. -/
theorem stringer_in_bounds (i : Int) :
    discoPingPurposeStringChecked i = some (discoPingPurposeString i) := by
  by_cases hc : i < 0 ∨ i ≥ (discoPingPurposeIndex.length : Int) - 1
  · rw [discoPingPurposeStringChecked, if_pos hc, discoPingPurposeString, if_pos hc]
  · have hlen : ((discoPingPurposeIndex.length : Int) - 1) = 3 := by decide
    rw [hlen] at hc
    push_neg at hc
    have : i = 0 ∨ i = 1 ∨ i = 2 := by omega
    rcases this with h | h | h <;> subst h <;> decide

/-- Helper: the fixed-width encoding has the stated width. -/
theorem length_natToBytes (k n : Nat) : (natToBytes k n).length = k := by
  induction k generalizing n with
  | zero => rfl
  | succ k ih => simp [natToBytes, ih]

/-- Helper: reading back the fixed-width encoding recovers the number. -/
theorem bytesToNat_natToBytes (k n : Nat) (h : n < 256 ^ k) :
    bytesToNat (natToBytes k n) = n := by
  induction k generalizing n with
  | zero =>
    simp [natToBytes, bytesToNat]
    omega
  | succ k ih =>
    have hdiv : n / 256 < 256 ^ k := by
      rw [Nat.div_lt_iff_lt_mul (by norm_num : 0 < 256)]
      calc n < 256 ^ (k + 1) := h
        _ = 256 ^ k * 256 := by ring
    simp [natToBytes, bytesToNat, ih _ hdiv]
    omega

/-- Helper: consuming `k` bytes from an encoding-plus-rest buffer yields the
encoded number and the rest. -/
theorem readNat_append (k n : Nat) (rest : List Nat) (h : n < 256 ^ k) :
    readNat k (natToBytes k n ++ rest) = some (n, rest) := by
  have hb := bytesToNat_natToBytes k n h
  have hl := length_natToBytes k n
  generalize natToBytes k n = l at hl hb ⊢
  subst hl
  rw [readNat, if_pos (by simp)]
  rw [List.take_left, List.drop_left, hb]

/-- Helper: consuming one address from its encoding-plus-rest buffer. -/
theorem readAddr_append (a : NetAddr) (rest : List Nat) (h : ValidAddr a) :
    readAddr (encodeAddr a ++ rest) = some (a, rest) := by
  obtain ⟨hip, hport⟩ := h
  rw [readAddr, encodeAddr, List.append_assoc]
  rw [readNat_append 16 a.ip _ hip]
  simp only [Option.bind_eq_bind, Option.some_bind]
  rw [readNat_append 2 a.port rest hport]
  rfl

/-- Helper: consuming a list of addresses from their concatenated encodings. -/
theorem readAddrs_append (cs : List NetAddr) (rest : List Nat)
    (h : ∀ a ∈ cs, ValidAddr a) :
    readAddrs cs.length ((cs.map encodeAddr).flatten ++ rest) = some (cs, rest) := by
  induction cs with
  | nil => rfl
  | cons a cs ih =>
    have ha : ValidAddr a := h a (List.mem_cons_self a cs)
    have hcs : ∀ x ∈ cs, ValidAddr x := fun x hx => h x (List.mem_cons_of_mem a hx)
    have harr : (((a :: cs).map encodeAddr).flatten ++ rest)
        = encodeAddr a ++ ((cs.map encodeAddr).flatten ++ rest) := by
      simp [List.append_assoc]
    rw [List.length_cons, harr]
    simp only [readAddrs]
    rw [readAddr_append a _ ha]
    simp only [Option.bind_eq_bind, Option.some_bind]
    rw [ih hcs]
    rfl

/-- Helper: decoding the ordinal of a purpose recovers the purpose. -/
theorem decodePurposeTag_ordinal (p : PingPurpose) :
    decodePurposeTag (purposeOrdinal p) = .ok p := by
  cases p <;> rfl

/-- C6: the codec round-trips — decoding the encoding of any valid `Ping`,
`Pong` or `CallMeMaybe` message reproduces the original fields exactly. -/
theorem disco_roundtrip (m : DiscoMessage) (h : ValidMessage m) :
    decodeDisco (encodeDisco m) = .ok m := by
  cases m with
  | ping t p =>
    have ht : t < 256 ^ 12 := h
    rw [encodeDisco, decodeDisco]
    rw [readNat_append 12 t [purposeOrdinal p] ht]
    simp [decodePurposeTag_ordinal p]
  | pong t a =>
    obtain ⟨ht, ha⟩ := h
    rw [encodeDisco, decodeDisco]
    rw [readNat_append 12 t (encodeAddr a) ht]
    have hra : readAddr (encodeAddr a) = some (a, []) := by
      have := readAddr_append a [] ha
      simpa using this
    simp [hra]
  | callMeMaybe cs =>
    obtain ⟨hn, hcs⟩ := h
    rw [encodeDisco, decodeDisco]
    rw [readNat_append 2 cs.length ((cs.map encodeAddr).flatten) hn]
    have hra : readAddrs cs.length ((cs.map encodeAddr).flatten) = some (cs, []) := by
      have := readAddrs_append cs [] hcs
      simpa using this
    simp [hra]

/-- Witness for `disco_roundtrip` at a concrete `Pong` message. -/
theorem disco_roundtrip_witness :
    decodeDisco (encodeDisco (.pong 7 ⟨3, 4⟩)) = Except.ok (.pong 7 ⟨3, 4⟩) :=
  disco_roundtrip (.pong 7 ⟨3, 4⟩) ⟨by norm_num, by norm_num, by norm_num⟩

/-- Helper: the empty store is well formed. -/
theorem goodStore_nil : GoodStore [] :=
  ⟨List.nodup_nil, by decide⟩

/-- Helper: adding a candidate preserves store well-formedness. -/
theorem goodStore_addCandidate (c : NetAddr) (cs : List (NetAddr × Bool))
    (h : GoodStore cs) : GoodStore (addCandidate c cs) := by
  obtain ⟨hn, ha⟩ := h
  rw [addCandidate]
  split_ifs with hmem
  · exact ⟨hn, ha⟩
  · refine ⟨?_, ?_⟩
    · rw [List.map_cons]
      refine List.nodup_cons.mpr ⟨?_, hn⟩
      intro hc
      apply hmem
      rw [List.any_eq_true]
      obtain ⟨p, hp, hpc⟩ := List.mem_map.mp hc
      exact ⟨p, hp, by simp [hpc]⟩
    · simpa [activeCount] using ha

/-- Helper: `setActive` does not change the stored addresses. -/
theorem map_fst_setActive (c : NetAddr) (cs : List (NetAddr × Bool)) :
    (setActive c cs).map Prod.fst = cs.map Prod.fst := by
  rw [setActive, List.map_map]
  rfl

/-- Helper: `clearActive` does not change the stored addresses. -/
theorem map_fst_clearActive (cs : List (NetAddr × Bool)) :
    (clearActive cs).map Prod.fst = cs.map Prod.fst := by
  rw [clearActive, List.map_map]
  rfl

/-- Helper: after `clearActive`, no candidate is active. -/
theorem activeCount_clearActive (cs : List (NetAddr × Bool)) :
    activeCount (clearActive cs) = 0 := by
  rw [activeCount, clearActive, List.filter_map]
  simp

/-- Helper: the number of active candidates after `setActive c` is the number
of stored entries for the address `c`. -/
theorem activeCount_setActive_eq (c : NetAddr) (cs : List (NetAddr × Bool)) :
    activeCount (setActive c cs) = cs.countP (fun p => decide (p.1 = c)) := by
  rw [activeCount, setActive, List.filter_map, List.length_map,
    List.countP_eq_length_filter]
  rfl

/-- Helper: with pairwise distinct addresses, `setActive` activates at most
one candidate. -/
theorem activeCount_setActive (c : NetAddr) (cs : List (NetAddr × Bool))
    (hn : (cs.map Prod.fst).Nodup) : activeCount (setActive c cs) ≤ 1 := by
  rw [activeCount_setActive_eq]
  have h1 : cs.countP (fun p => decide (p.1 = c)) = (cs.map Prod.fst).count c := by
    rw [List.count, List.countP_map]
    rfl
  rw [h1]
  exact List.nodup_iff_count_le_one.mp hn c

/-- Helper: `setActive` preserves store well-formedness. -/
theorem goodStore_setActive (c : NetAddr) (cs : List (NetAddr × Bool))
    (h : GoodStore cs) : GoodStore (setActive c cs) := by
  refine ⟨?_, activeCount_setActive c cs h.1⟩
  rw [map_fst_setActive]
  exact h.1

/-- Helper: `clearActive` preserves store well-formedness. -/
theorem goodStore_clearActive (cs : List (NetAddr × Bool))
    (h : GoodStore cs) : GoodStore (clearActive cs) := by
  refine ⟨?_, ?_⟩
  · rw [map_fst_clearActive]
    exact h.1
  · rw [activeCount_clearActive]
    omega

/-- Helper: removing candidates preserves store well-formedness. -/
theorem goodStore_filter (q : NetAddr × Bool → Bool) (cs : List (NetAddr × Bool))
    (h : GoodStore cs) : GoodStore (cs.filter q) := by
  obtain ⟨hn, ha⟩ := h
  refine ⟨?_, ?_⟩
  · exact hn.sublist (List.Sublist.map Prod.fst cs.filter_sublist)
  · calc activeCount (cs.filter q)
        ≤ activeCount cs := by
          exact List.Sublist.length_le (List.Sublist.filter _ cs.filter_sublist)
      _ ≤ 1 := ha

/-- Helper: every transition of the path-selection machine preserves store
well-formedness. -/
theorem goodStore_step (s : PeerPathMachine) (e : PeerEvent)
    (h : GoodStore s.cands) : GoodStore (stepPeer s e).cands := by
  obtain ⟨path, cands⟩ := s
  cases e with
  | candidateAdded c =>
    cases path <;> exact goodStore_addCandidate c cands h
  | pongValidated c =>
    cases path <;> first
      | exact h
      | exact goodStore_setActive c cands h
  | allDiscoveryFailed =>
    cases path <;> first
      | exact h
      | exact goodStore_clearActive cands h
  | graceExpired =>
    cases path <;> first
      | exact h
      | exact goodStore_clearActive cands h
  | probeFailed c p =>
    cases p with
    | Discovery =>
      cases path <;> first
        | exact h
        | exact goodStore_filter _ cands h
    | Heartbeat =>
      cases path <;> first
        | exact h
        | (simp only [stepPeer]; split_ifs <;> exact h)
    | CLI =>
      cases path <;> exact h

/-- Helper: every reachable machine has a well-formed store. -/
theorem goodStore_reachable (s : PeerPathMachine) (h : ReachablePeer s) :
    GoodStore s.cands := by
  induction h with
  | init => exact goodStore_nil
  | step s e _ ih => exact goodStore_step s e ih

/-- C7: for every reachable state of a peer's path-selection state machine,
at most one endpoint candidate is Direct-active — mutual exclusion over
candidates is preserved by every transition. -/
theorem direct_active_mutual_exclusion (s : PeerPathMachine)
    (h : ReachablePeer s) : activeCount s.cands ≤ 1 :=
  (goodStore_reachable s h).2

/-- Witness for `direct_active_mutual_exclusion` at the machine reached by
adding a candidate and validating it. -/
theorem direct_active_mutual_exclusion_witness :
    activeCount (stepPeer (stepPeer initPeerMachine
      (.candidateAdded ⟨1, 1⟩)) (.pongValidated ⟨1, 1⟩)).cands ≤ 1 :=
  direct_active_mutual_exclusion _
    (ReachablePeer.step _ _ (ReachablePeer.step _ _ ReachablePeer.init))

/-- Helper: the `/update` arm leaves the traversal engine untouched. -/
theorem disco_handleUpdateEndpoint (b : LocalBackendState) (r : C2NRequest) :
    (handleUpdateEndpoint b r).2.disco = b.disco := by
  rw [handleUpdateEndpoint]
  cases handleC2NUpdate b.admin.updateEnv r.method <;> rfl

/-- Helper: the `/logtail/flush` arm leaves the traversal engine untouched. -/
theorem disco_handleLogtailFlush (b : LocalBackendState) (r : C2NRequest) :
    (handleLogtailFlush b r).2.disco = b.disco := by
  rw [handleLogtailFlush]
  split_ifs
  · rfl
  · rcases tryFlushLogs b.admin with ⟨ok, a⟩
    cases ok <;> rfl

/-- Helper: the `/debug/component-logging` arm leaves the traversal engine
untouched. -/
theorem disco_handleComponentLogging (b : LocalBackendState) (r : C2NRequest) :
    (handleComponentLogging b r).2.disco = b.disco := by
  rw [handleComponentLogging]

/-- Helper: the `/ssh/usernames` arm leaves the traversal engine untouched. -/
theorem disco_handleSSHUsernames (b : LocalBackendState) (r : C2NRequest) :
    (handleSSHUsernames b r).2.disco = b.disco := by
  rw [handleSSHUsernames]
  split_ifs
  · rfl
  · rcases getSSHUsernames b.admin with e | ns <;> rfl

/-- Helper: the `/sockstats` arm leaves the traversal engine untouched. -/
theorem disco_handleSockstats (b : LocalBackendState) (r : C2NRequest) :
    (handleSockstats b r).2.disco = b.disco := by
  rw [handleSockstats]
  split_ifs <;> rfl

set_option maxHeartbeats 1000000 in
/-- C3: no request handled by the admin surface `handleC2N` modifies any
peer's path-selection or discovery state, and a CLI-purpose probe failure
never changes a peer's path-selection machine. -/
theorem admin_surface_no_path_transition (b : LocalBackendState) (r : C2NRequest)
    (m : PeerPathMachine) (c : NetAddr) :
    (handleC2N b r).2.disco = b.disco ∧ stepPeer m (.probeFailed c .CLI) = m := by
  constructor
  · rw [handleC2N]
    split_ifs
    · rfl
    · exact disco_handleUpdateEndpoint b r
    · exact disco_handleLogtailFlush b r
    · rfl
    · rfl
    · rfl
    · exact disco_handleComponentLogging b r
    · rfl
    · rfl
    · exact disco_handleSSHUsernames b r
    · exact disco_handleSockstats b r
    · rfl
  · obtain ⟨path, cands⟩ := m
    cases path <;> rfl

/-- C5: `handleC2N` dispatches log flushing, metrics export, remote-update
triggering and SSH username lookup to their dedicated handlers, and answers
every unrecognized path with HTTP 400 and "unknown c2n path". -/
theorem c2n_dispatch (b : LocalBackendState) (r : C2NRequest) :
    (r.path = "/logtail/flush" → handleC2N b r = handleLogtailFlush b r) ∧
    (r.path = "/debug/metrics" → handleC2N b r = handleDebugMetrics b r) ∧
    (r.path = "/update" → handleC2N b r = handleUpdateEndpoint b r) ∧
    (r.path = "/ssh/usernames" → handleC2N b r = handleSSHUsernames b r) ∧
    (r.path ∉ c2nRecognizedPaths →
      handleC2N b r = (⟨400, .text "unknown c2n path"⟩, b)) := by
  refine ⟨?_, ?_, ?_, ?_, ?_⟩ <;> intro h
  · simp [handleC2N, h]
  · simp [handleC2N, h]
  · simp [handleC2N, h]
  · simp [handleC2N, h]
  · simp only [c2nRecognizedPaths, List.mem_cons, List.not_mem_nil, or_false, not_or] at h
    obtain ⟨h1, h2, h3, h4, h5, h6, h7, h8, h9, h10⟩ := h
    simp [handleC2N, h1, h2, h3, h4, h5, h6, h7, h8, h9, h10]

/-- Witness for `c2n_dispatch` at a request for the unrecognized path
`/bogus`. -/
theorem c2n_dispatch_witness :
    handleC2N sampleBackend sampleUnknownRequest
      = (⟨400, .text "unknown c2n path"⟩, sampleBackend) :=
  (c2n_dispatch sampleBackend sampleUnknownRequest).2.2.2.2 (by decide)

/-- C10: for every request with URL path `/echo`, regardless of method,
`handleC2N` answers 200 with exactly the bytes of the request body and leaves
the state unchanged. -/
theorem echo_identity (b : LocalBackendState) (r : C2NRequest)
    (h : r.path = "/echo") :
    handleC2N b r = (⟨200, .raw r.body⟩, b) := by
  simp [handleC2N, h]

/-- Witness for `echo_identity` at a concrete request with body `[1, 2, 3]`. -/
theorem echo_identity_witness :
    handleC2N sampleBackend sampleEchoRequest
      = (⟨200, C2NBody.raw [1, 2, 3]⟩, sampleBackend) :=
  echo_identity sampleBackend sampleEchoRequest rfl

/-- C4: the disco codec is a pure, deterministic transform — the rendered
name, the encoded frame and the decoded message do not depend on the ambient
program state, and the state after running each of them is exactly the state
before. -/
theorem codec_pure_transform :
    (∀ (s₁ s₂ : LocalBackendState) (i : Int),
      (codecRenderIn s₁ i).1 = (codecRenderIn s₂ i).1 ∧ (codecRenderIn s₁ i).2 = s₁) ∧
    (∀ (s₁ s₂ : LocalBackendState) (m : DiscoMessage),
      (codecEncodeIn s₁ m).1 = (codecEncodeIn s₂ m).1 ∧ (codecEncodeIn s₁ m).2 = s₁) ∧
    (∀ (s₁ s₂ : LocalBackendState) (bs : List Nat),
      (codecDecodeIn s₁ bs).1 = (codecDecodeIn s₂ bs).1 ∧ (codecDecodeIn s₁ bs).2 = s₁) :=
  ⟨fun _ _ _ => ⟨rfl, rfl⟩, fun _ _ _ => ⟨rfl, rfl⟩, fun _ _ _ => ⟨rfl, rfl⟩⟩

/-- Helper: the find-binary failure message starts with a lowercase f. -/
theorem err_find_head (s : String) :
    ("failed to find cmd/tailscale binary: " ++ s).data.head? = some 'f' := by
  rfl

/-- Helper: a negated Bool condition gives the false value. -/
theorem bool_of_pos (b : Bool) (h : (!b) = true) : b = false := by
  cases b <;> simp_all

/-- Helper: a doubly negated Bool condition gives the true value. -/
theorem bool_of_neg (b : Bool) (h : ¬((!b) = true)) : b = true := by
  cases b <;> simp_all

/-- C9: for every `/update` request with method GET or POST, the update
endpoint reports `Started = true` exactly when the method is POST, remote
update is enabled and supported, the matching cmd/tailscale binary is found,
its reported long version (obtained and parsed successfully) equals the
daemon version, and the update command starts; in every other POST case
`Started` stays false with a non-empty `Err`, and a GET request never starts
an update and reports `Err` empty. -/
theorem update_endpoint_behavior (env : UpdateEnv) (method : String)
    (h : method = "GET" ∨ method = "POST") :
    ∃ res, handleC2NUpdate env method = some res ∧
      res.Enabled = env.allowsRemoteUpdate ∧
      res.Supported = (env.newUpdaterOk && !env.isMacSysExt) ∧
      (res.Started = true ↔ (method = "POST" ∧ env.allowsRemoteUpdate = true ∧
        (env.newUpdaterOk && !env.isMacSysExt) = true ∧
        (∃ p, findCmdTailscale env = .ok p) ∧ env.versionOutputOk = true ∧
        env.versionJSONOk = true ∧ env.versionLong = env.daemonLong ∧
        env.startOk = true)) ∧
      (method = "POST" → res.Started = false → res.Err ≠ "") ∧
      (method = "GET" → res.Started = false ∧ res.Err = "") := by
  rcases h with h | h <;> subst h
  · refine ⟨⟨false, "", env.allowsRemoteUpdate, env.newUpdaterOk && !env.isMacSysExt⟩,
      ?_, rfl, rfl, ?_, ?_, ?_⟩
    · simp [handleC2NUpdate]
    · simp
    · intro hpost
      exact absurd hpost (by decide)
    · intro _
      exact ⟨rfl, rfl⟩
  · simp only [handleC2NUpdate]
    split_ifs with h1 h2 h3 h4 h5 h6 h7 h8
    · exact absurd rfl h1.2
    · exact absurd h2 (by decide)
    · have hb3 := bool_of_pos _ h3
      refine ⟨_, rfl, rfl, rfl, ?_, ?_, ?_⟩
      · simp [hb3]
      · intro _ _
        simp
      · intro hg
        exact absurd hg (by decide)
    · have hb4 := bool_of_pos _ h4
      refine ⟨_, rfl, rfl, rfl, ?_, ?_, ?_⟩
      · simp [hb4]
      · intro _ _
        simp
      · intro hg
        exact absurd hg (by decide)
    · rcases hfc : findCmdTailscale env with e | p <;> simp only [hfc]
      · refine ⟨_, rfl, rfl, rfl, ?_, ?_, ?_⟩
        · simp [hfc]
        · intro _ _
          refine string_ne_of_head_ne _ _ ?_
          rw [err_find_head]
          decide
        · intro hg
          exact absurd hg (by decide)
      · have hb5 := bool_of_pos _ h5
        refine ⟨_, rfl, rfl, rfl, ?_, ?_, ?_⟩
        · simp [hb5]
        · intro _ _
          simp
        · intro hg
          exact absurd hg (by decide)
    · rcases hfc : findCmdTailscale env with e | p <;> simp only [hfc]
      · refine ⟨_, rfl, rfl, rfl, ?_, ?_, ?_⟩
        · simp [hfc]
        · intro _ _
          refine string_ne_of_head_ne _ _ ?_
          rw [err_find_head]
          decide
        · intro hg
          exact absurd hg (by decide)
      · have hb6 := bool_of_pos _ h6
        refine ⟨_, rfl, rfl, rfl, ?_, ?_, ?_⟩
        · simp [hb6]
        · intro _ _
          simp
        · intro hg
          exact absurd hg (by decide)
    · rcases hfc : findCmdTailscale env with e | p <;> simp only [hfc]
      · refine ⟨_, rfl, rfl, rfl, ?_, ?_, ?_⟩
        · simp [hfc]
        · intro _ _
          refine string_ne_of_head_ne _ _ ?_
          rw [err_find_head]
          decide
        · intro hg
          exact absurd hg (by decide)
      · refine ⟨_, rfl, rfl, rfl, ?_, ?_, ?_⟩
        · simp [h7]
        · intro _ _
          simp
        · intro hg
          exact absurd hg (by decide)
    · rcases hfc : findCmdTailscale env with e | p <;> simp only [hfc]
      · refine ⟨_, rfl, rfl, rfl, ?_, ?_, ?_⟩
        · simp [hfc]
        · intro _ _
          refine string_ne_of_head_ne _ _ ?_
          rw [err_find_head]
          decide
        · intro hg
          exact absurd hg (by decide)
      · have hb8 := bool_of_pos _ h8
        refine ⟨_, rfl, rfl, rfl, ?_, ?_, ?_⟩
        · simp [hb8]
        · intro _ _
          simp
        · intro hg
          exact absurd hg (by decide)
    · rcases hfc : findCmdTailscale env with e | p <;> simp only [hfc]
      · refine ⟨_, rfl, rfl, rfl, ?_, ?_, ?_⟩
        · simp [hfc]
        · intro _ _
          refine string_ne_of_head_ne _ _ ?_
          rw [err_find_head]
          decide
        · intro hg
          exact absurd hg (by decide)
      · have hb3 := bool_of_neg _ h3
        have hb4 := bool_of_neg _ h4
        have hb5 := bool_of_neg _ h5
        have hb6 := bool_of_neg _ h6
        have hb8 := bool_of_neg _ h8
        refine ⟨_, rfl, rfl, rfl, ?_, ?_, ?_⟩
        · constructor
          · intro _
            exact ⟨by trivial, hb3, hb4, ⟨p, by simp [hfc]⟩, hb5, hb6, not_not.mp h7, hb8⟩
          · intro _
            rfl
        · intro _ hst
          exact absurd hst (by simp)
        · intro hg
          exact absurd hg (by decide)

/-- Witness for `update_endpoint_behavior` at the concrete environment
`sampleUpdateEnv` with method GET. -/
theorem update_endpoint_behavior_witness :
    ∃ res, handleC2NUpdate sampleUpdateEnv "GET" = some res ∧
      res.Enabled = sampleUpdateEnv.allowsRemoteUpdate ∧
      res.Supported = (sampleUpdateEnv.newUpdaterOk && !sampleUpdateEnv.isMacSysExt) ∧
      (res.Started = true ↔ ("GET" = "POST" ∧
        sampleUpdateEnv.allowsRemoteUpdate = true ∧
        (sampleUpdateEnv.newUpdaterOk && !sampleUpdateEnv.isMacSysExt) = true ∧
        (∃ p, findCmdTailscale sampleUpdateEnv = .ok p) ∧
        sampleUpdateEnv.versionOutputOk = true ∧
        sampleUpdateEnv.versionJSONOk = true ∧
        sampleUpdateEnv.versionLong = sampleUpdateEnv.daemonLong ∧
        sampleUpdateEnv.startOk = true)) ∧
      ("GET" = "POST" → res.Started = false → res.Err ≠ "") ∧
      ("GET" = "GET" → res.Started = false ∧ res.Err = "") :=
  update_endpoint_behavior sampleUpdateEnv "GET" (Or.inl rfl)

end Tailscale
